import Mathlib

/-!
Verification development for the AbhiScript transcription backend.

The definitions below are a shallow embedding of the TypeScript sources
  src/backend/src/services/transcriptionService.ts
  src/backend/src/services/speakerIdentificationService.ts
JavaScript numbers are modelled as rationals, JavaScript truthiness of
strings and numbers is modelled explicitly, optional object fields are
modelled with Option, thrown exceptions with Except, and the Prisma
database with explicit record lists threaded through the operations.
-/

namespace AbhiScript

/-! ## JavaScript primitive semantics -/

/-- Semantics of the JavaScript expression a or-else b for strings:
the left operand is returned unless it is falsy (the empty string). -/
def jsOrString (a b : String) : String :=
  if a = "" then b else a

/-- Semantics of o or-else b where o is a possibly absent string field:
undefined and the empty string are falsy. -/
def jsOrOptString (o : Option String) (b : String) : String :=
  match o with
  | some s => if s = "" then b else s
  | none => b

/-- Semantics of o or-else b where o is a possibly absent numeric field:
undefined and 0 are falsy. -/
def jsOrOptNum (o : Option ℚ) (b : ℚ) : ℚ :=
  match o with
  | some q => if q = 0 then b else q
  | none => b

/-- Semantics of a or-else b for numbers: a unless a is falsy (0). On the
values produced by this code the result always equals a. -/
def jsOrNum (a b : ℚ) : ℚ :=
  if a = 0 then b else a

/-- String truthiness of an optional string: a present non-empty string. -/
def jsTruthy (o : Option String) : Bool :=
  match o with
  | some s => s ≠ ""
  | none => false

/-- Whitespace set trimmed by the JavaScript String trim method
(ASCII fragment; the inputs built by this code only carry spaces). -/
def jsWhitespace (c : Char) : Bool :=
  c = ' ' || c = '\t' || c = '\n' || c = '\x0b' || c = '\x0c' || c = '\r'

/-- Semantics of the JavaScript String trim method: drop whitespace from
both ends. Implemented structurally so that it evaluates in the kernel. -/
def jsTrim (s : String) : String :=
  ⟨((s.data.dropWhile jsWhitespace).reverse.dropWhile jsWhitespace).reverse⟩

/-- Template-literal rendering of a possibly undefined string field:
an absent value prints as the string undefined. -/
def jsTemplate (o : Option String) : String :=
  match o with
  | some s => s
  | none => "undefined"

/-! ## Data model: provider response and segments
(transcriptionService.ts, interface TranscriptionResult and the shapes
consumed by parseAssemblyAISegmentsWithSpeakers) -/

/-- One entry of the providers utterances array: start and end in
milliseconds, text, and a speaker id that may be absent. -/
structure Utterance where
  start : ℚ
  end_ : ℚ
  text : String
  speaker : Option String
deriving DecidableEq, Repr

/-- One entry of the providers words array. -/
structure AAIWord where
  start : ℚ
  end_ : ℚ
  text : String
  speaker : Option String
deriving DecidableEq, Repr

/-- A normalized transcript segment ({ start, end, text, speaker? }). -/
structure Segment where
  start : ℚ
  end_ : ℚ
  text : String
  speaker : Option String
deriving DecidableEq, Repr

/-- The provider response object as consumed by the transcription service:
status, error message, transcript text, language code, audio duration in
seconds, and the two optional raw shapes. -/
structure ProviderResponse where
  status : String
  error : Option String
  text : Option String
  language_code : Option String
  audio_duration : Option ℚ
  utterances : Option (List Utterance)
  words : Option (List AAIWord)
deriving DecidableEq, Repr

/-! ## Segment Normalizer
(transcriptionService.ts, parseAssemblyAISegmentsWithSpeakers) -/

/-- The speaker tag inferred for a word or utterance: the expression
word.speaker ? Speaker plus id : undefined, where JavaScript truthiness
makes a present empty id count as absent. -/
def speakerTagOf (sp : Option String) : Option String :=
  match sp with
  | some s => if s = "" then none else some ("Speaker " ++ s)
  | none => none

/-- The regular expression test for a sentence-final punctuation mark:
word.text matches a dot, bang or question mark at the end. -/
def endsSentencePunct (s : String) : Bool :=
  match s.data.getLast? with
  | some c => c = '.' || c = '!' || c = '?'
  | none => false

/-- The guard if currentSpeaker: a truthy (present, non-empty) speaker
string is attached to the pushed segment, a falsy one is dropped. -/
def truthySpeaker (o : Option String) : Option String :=
  match o with
  | some s => if s = "" then none else some s
  | none => none

/-- The word-grouping loop of parseAssemblyAISegmentsWithSpeakers
(lines 184-231): index i, remaining words, accumulated segments,
the growing text buffer currentSegment, segmentStart and currentSpeaker.
At i equal 0 segmentStart and currentSpeaker are initialised from the
first word. The word text is appended to the buffer before the boundary
test. A boundary closes the segment on a speaker change, sentence-final
punctuation, a positive index divisible by 50, or the last word; after a
speaker change the triggering word also seeds the next buffer, otherwise
the next buffer starts empty and segmentStart and currentSpeaker are
taken from the following word. -/
def segmentsFromWordsGo : Nat → List AAIWord → List Segment → String → ℚ → Option String → List Segment
  | _, [], segs, _, _, _ => segs
  | i, w :: rest, segs, currentSegment, segmentStart, currentSpeaker =>
    let segmentStart := if i = 0 then w.start / 1000 else segmentStart
    let currentSpeaker := if i = 0 then speakerTagOf w.speaker else currentSpeaker
    let wordSpeaker := speakerTagOf w.speaker
    let speakerChanged := wordSpeaker ≠ currentSpeaker
    let currentSegment := currentSegment ++ w.text ++ " "
    if speakerChanged ∨ endsSentencePunct w.text = true ∨ (0 < i ∧ i % 50 = 0) ∨ rest = [] then
      let seg : Segment :=
        { start := segmentStart, end_ := w.end_ / 1000, text := jsTrim currentSegment,
          speaker := truthySpeaker currentSpeaker }
      let segs := segs ++ [seg]
      if speakerChanged then
        segmentsFromWordsGo (i + 1) rest segs (w.text ++ " ") (w.start / 1000) wordSpeaker
      else
        match rest with
        | [] => segs
        | w2 :: _ =>
          segmentsFromWordsGo (i + 1) rest segs "" (jsOrNum (w2.start / 1000) 0) (speakerTagOf w2.speaker)
    else
      segmentsFromWordsGo (i + 1) rest segs currentSegment segmentStart currentSpeaker

/-- parseAssemblyAISegmentsWithSpeakers: an utterances array (even an
empty one, which is truthy) is mapped one to one; otherwise a words array
is grouped by the loop above; otherwise a single whole-transcript segment
is produced. -/
def parseAssemblyAISegmentsWithSpeakers (t : ProviderResponse) : List Segment :=
  match t.utterances with
  | some us =>
    us.map fun u =>
      { start := u.start / 1000, end_ := u.end_ / 1000,
        text := jsOrString u.text "",
        speaker := speakerTagOf u.speaker }
  | none =>
    match t.words with
    | some ws => segmentsFromWordsGo 0 ws [] "" 0 none
    | none =>
      [{ start := 0, end_ := jsOrOptNum t.audio_duration 0,
         text := jsOrOptString t.text "", speaker := none }]

/-- The segment value pushed at a boundary. -/
def pushedSeg (i : Nat) (w : AAIWord) (cur : String) (st : ℚ) (curSpk : Option String) : Segment :=
  { start := if i = 0 then w.start / 1000 else st,
    end_ := w.end_ / 1000,
    text := jsTrim (cur ++ w.text ++ " "),
    speaker := truthySpeaker (if i = 0 then speakerTagOf w.speaker else curSpk) }

/-- The word indices at which the loop closes a segment when no speaker
change and no sentence punctuation occurs: positive multiples of 50, and
the last index. -/
def wordBoundary (n i : Nat) : Bool :=
  (decide (0 < i) && decide (i % 50 = 0)) || decide (i = n - 1)

/-- Start-time order on segments. -/
def segLE (a b : Segment) : Prop := a.start ≤ b.start

/-- Start-time order (in milliseconds) on provider words. -/
def wordLE (a b : AAIWord) : Prop := a.start ≤ b.start

/-! ## JSON serialization of flat string-to-string objects
(the speakerNames column is written with JSON.stringify and read back with
JSON.parse; this models that library pair on the flat object fragment) -/

/-- A speaker mapping: the flat string-to-string JSON object produced by
the language model, as an ordered association list with the object keys. -/
abbrev SpeakerMapping : Type := List (String × String)

/-- Lower-case hexadecimal digit, as emitted by JSON.stringify escapes. -/
def hexDigitChar (n : Nat) : Char :=
  if n < 10 then Char.ofNat (48 + n) else Char.ofNat (87 + n)

/-- The escape JSON.stringify applies to one character of a string value:
quote and backslash are backslash-escaped, the named control characters
use their short escapes, other control characters use a u00XX escape, and
everything else passes through. -/
def escapeChar (c : Char) : List Char :=
  if c = '"' then ['\\', '"']
  else if c = '\\' then ['\\', '\\']
  else if c = '\x08' then ['\\', 'b']
  else if c = '\x0c' then ['\\', 'f']
  else if c = '\n' then ['\\', 'n']
  else if c = '\r' then ['\\', 'r']
  else if c = '\t' then ['\\', 't']
  else if c.toNat < 32 then
    ['\\', 'u', '0', '0', hexDigitChar (c.toNat / 16), hexDigitChar (c.toNat % 16)]
  else [c]

/-- Body of a JSON string literal: every character escaped. -/
def encodeStringBody (s : List Char) : List Char :=
  (s.map escapeChar).flatten

/-- A JSON string literal as a character list: quote, body, quote. -/
def encodeJString (s : String) : List Char :=
  '"' :: (encodeStringBody s.data ++ ['"'])

/-- One key colon value pair of the serialized object. -/
def encodePair (p : String × String) : List Char :=
  encodeJString p.1 ++ ':' :: encodeJString p.2

/-- Comma-separated pair list of the serialized object body. -/
def encodeBody : List (String × String) → List Char
  | [] => []
  | [p] => encodePair p
  | p :: rest => encodePair p ++ ',' :: encodeBody rest

/-- JSON.stringify on a flat string-to-string object: braces around the
comma-separated pairs, no whitespace. -/
def encodeMapping (m : SpeakerMapping) : String :=
  ⟨'{' :: (encodeBody m ++ ['}'])⟩

/-- Value of one hexadecimal digit character. -/
def hexVal (c : Char) : Option Nat :=
  if '0' ≤ c ∧ c ≤ '9' then some (c.toNat - 48)
  else if 'a' ≤ c ∧ c ≤ 'f' then some (c.toNat - 87)
  else if 'A' ≤ c ∧ c ≤ 'F' then some (c.toNat - 55)
  else none

/-- Parser for the body of a JSON string literal, after the opening quote:
returns the decoded characters and the input remaining after the closing
quote, or none on malformed input. -/
def parseStringBody : List Char → Option (List Char × List Char)
  | [] => none
  | c :: rest =>
    if c = '"' then some ([], rest)
    else if c = '\\' then
      match rest with
      | [] => none
      | e :: r =>
        if e = '"' then (parseStringBody r).map fun pr => ('"' :: pr.1, pr.2)
        else if e = '\\' then (parseStringBody r).map fun pr => ('\\' :: pr.1, pr.2)
        else if e = '/' then (parseStringBody r).map fun pr => ('/' :: pr.1, pr.2)
        else if e = 'b' then (parseStringBody r).map fun pr => ('\x08' :: pr.1, pr.2)
        else if e = 'f' then (parseStringBody r).map fun pr => ('\x0c' :: pr.1, pr.2)
        else if e = 'n' then (parseStringBody r).map fun pr => ('\n' :: pr.1, pr.2)
        else if e = 'r' then (parseStringBody r).map fun pr => ('\r' :: pr.1, pr.2)
        else if e = 't' then (parseStringBody r).map fun pr => ('\t' :: pr.1, pr.2)
        else if e = 'u' then
          match r with
          | h1 :: h2 :: h3 :: h4 :: r2 =>
            match hexVal h1, hexVal h2, hexVal h3, hexVal h4 with
            | some a, some b, some c2, some d =>
              (parseStringBody r2).map fun pr =>
                (Char.ofNat (((a * 16 + b) * 16 + c2) * 16 + d) :: pr.1, pr.2)
            | _, _, _, _ => none
          | _ => none
        else none
    else (parseStringBody rest).map fun pr => (c :: pr.1, pr.2)

/-- Fuel-bounded parser for the pair list of a flat JSON object, after the
opening brace, for a non-empty pair list: parses key colon value pairs
separated by commas and consumes the closing brace. -/
def parsePairs : Nat → List Char → Option (SpeakerMapping × List Char)
  | 0, _ => none
  | _ + 1, [] => none
  | fuel + 1, c :: r =>
    if c = '"' then
      match parseStringBody r with
      | some (k, r1) =>
        match r1 with
        | c2 :: r2 =>
          if c2 = ':' then
            match r2 with
            | c3 :: r3 =>
              if c3 = '"' then
                match parseStringBody r3 with
                | some (v, r4) =>
                  match r4 with
                  | c4 :: r5 =>
                    if c4 = ',' then
                      match parsePairs fuel r5 with
                      | some (ps, r6) => some ((⟨k⟩, ⟨v⟩) :: ps, r6)
                      | none => none
                    else if c4 = '}' then some ([(⟨k⟩, ⟨v⟩)], r5)
                    else none
                  | [] => none
                | none => none
              else none
            | [] => none
          else none
        | [] => none
      | none => none
    else none

/-- JSON.parse restricted to the flat string-to-string objects this code
stores: either the empty object or a brace-wrapped pair list consuming the
whole input. -/
def decodeMapping (s : String) : Option SpeakerMapping :=
  match s.data with
  | '{' :: rest =>
    match rest with
    | '}' :: rest2 => if rest2 = [] then some [] else none
    | _ =>
      match parsePairs rest.length rest with
      | some (ps, r) => if r = [] then some ps else none
      | none => none
  | _ => none

/-! ## Database model
(prisma schema: recordings and transcripts tables; the transcript content
column is modelled structurally as its parsed segment list, while the
speakerNames column keeps its serialized string form) -/

/-- A row of the recordings table (the fields the core flow touches). -/
structure RecordingRow where
  id : String
  filename : String
  originalFilename : String
  duration : Option ℚ
  status : String
deriving DecidableEq, Repr

/-- A row of the transcripts table. recordingId is unique. -/
structure TranscriptRow where
  id : String
  recordingId : String
  content : List Segment
  rawTranscript : String
  speakerCount : Nat
  confidenceScore : Option ℚ
  language : Option String
  speakerNames : Option String
  speakerIdentified : Bool
deriving DecidableEq, Repr

/-- The two tables the transcription flow reads and writes. -/
structure DB where
  recordings : List RecordingRow
  transcripts : List TranscriptRow
deriving DecidableEq, Repr

/-- prisma.recording.findUnique on id. -/
def findRecording (db : DB) (rid : String) : Option RecordingRow :=
  db.recordings.find? fun r => r.id = rid

/-- prisma.transcript.findUnique on recordingId. -/
def findTranscript (db : DB) (rid : String) : Option TranscriptRow :=
  db.transcripts.find? fun t => t.recordingId = rid

/-- prisma.recording.update: applies f to the matching row, or throws the
record-not-found error when no recording has the id. -/
def updateRecording (db : DB) (rid : String) (f : RecordingRow → RecordingRow) :
    Except String DB :=
  if (db.recordings.find? fun r => r.id = rid).isSome then
    .ok { db with recordings := db.recordings.map fun r => if r.id = rid then f r else r }
  else .error "P2025"

/-- prisma.transcript.update on recordingId: applies f to the matching row
or throws the record-not-found error. -/
def updateTranscript (db : DB) (rid : String) (f : TranscriptRow → TranscriptRow) :
    Except String DB :=
  if (db.transcripts.find? fun t => t.recordingId = rid).isSome then
    .ok { db with transcripts := db.transcripts.map fun t => if t.recordingId = rid then f t else t }
  else .error "P2025"

/-- prisma.transcript.create: inserts a row, or throws the unique
constraint error when a transcript for the recording already exists. -/
def createTranscript (db : DB) (row : TranscriptRow) : Except String DB :=
  if (db.transcripts.find? fun t => t.recordingId = row.recordingId).isSome then
    .error "P2002"
  else .ok { db with transcripts := db.transcripts ++ [row] }

/-! ## Speaker Identification Service
(speakerIdentificationService.ts) -/

/-- Property read on a JavaScript object parsed from flat JSON: the last
entry for the key wins (later duplicate keys overwrite earlier ones), an
absent key reads as undefined. -/
def jsObjGet (m : SpeakerMapping) (k : String) : Option String :=
  ((m.filter fun p => p.1 = k).getLast?).map fun p => p.2

/-- storeSpeakerMapping (lines 149-165): writes the serialized mapping
into the speakerNames column of the transcript of the recording and sets
the speakerIdentified flag; a missing transcript row is an error. -/
def storeSpeakerMapping (db : DB) (recordingId : String) (m : SpeakerMapping) :
    Except String DB :=
  updateTranscript db recordingId fun t =>
    { t with speakerNames := some (encodeMapping m), speakerIdentified := true }

/-- getSpeakerMapping (lines 170-186): loads the transcript, returns null
when the row or its speakerNames column is absent or falsy, otherwise
parses the stored JSON; a parse failure is caught and returned as null. -/
def getSpeakerMapping (db : DB) (recordingId : String) : Option SpeakerMapping :=
  match findTranscript db recordingId with
  | none => none
  | some t =>
    match t.speakerNames with
    | none => none
    | some s => if s = "" then none else decodeMapping s

/-- The per-segment transform of applySpeakerNamesToSegments (lines
201-204): the segment speaker tag (or the empty string when absent) is
looked up in the mapping; a truthy mapped value replaces the speaker,
otherwise the original speaker is kept. -/
def mappedSpeaker (m : SpeakerMapping) (spk : Option String) : Option String :=
  let key := jsOrOptString spk ""
  match jsObjGet m key with
  | some v => if v = "" then spk else some v
  | none => spk

/-- The segment rebuilt by the spread expression: all fields kept, the
speaker field replaced by the lookup result above. -/
def applyMappingToSegment (m : SpeakerMapping) (seg : Segment) : Segment :=
  { seg with speaker := mappedSpeaker m seg.speaker }

/-- applySpeakerNamesToSegments (lines 191-205), pure core: maps the
per-segment transform over the list for a given stored mapping. -/
def applySpeakerNamesToSegments (m : SpeakerMapping) (segments : List Segment) :
    List Segment :=
  segments.map (applyMappingToSegment m)

/-- applySpeakerNamesToSegments including the mapping load: when no
mapping is stored the segments are returned unchanged. -/
def applySpeakerNamesToSegmentsDB (db : DB) (recordingId : String)
    (segments : List Segment) : List Segment :=
  match getSpeakerMapping db recordingId with
  | none => segments
  | some m => applySpeakerNamesToSegments m segments

/-! ## Transcription Orchestrator
(transcriptionService.ts, transcribeAudio and helpers) -/

/-- The TranscriptionResult interface. -/
structure TranscriptionResult where
  text : String
  segments : List Segment
  language : String
  duration : ℚ
  speakerCount : Nat
deriving DecidableEq, Repr

/-- The environment one orchestration run interacts with: the provider
response, the duration the ffprobe helper resolves (it never rejects: a
probe failure already resolved to 0), and the outcome of the speaker
identification service, with none meaning the service is unavailable
because no language-model key was configured. -/
structure RunEnv where
  resp : ProviderResponse
  probeDuration : ℚ
  resolver : Option (Except String SpeakerMapping)

/-- Count of distinct speakers: new Set of the segment speakers with falsy
entries filtered out (lines 136-137). -/
def countUniqueSpeakers (segments : List Segment) : Nat :=
  (((segments.map Segment.speaker).filterMap id).filter fun s => s ≠ "").dedup.length

/-- transcribeDirectly (lines 109-151): a provider error status throws;
otherwise the response is normalized into segments; any thrown error is
wrapped with the Transcription failed prefix by the catch block. -/
def transcribeDirectly (env : RunEnv) : Except String TranscriptionResult :=
  let inner : Except String TranscriptionResult :=
    if env.resp.status = "error" then
      .error ("AssemblyAI transcription failed: " ++ jsTemplate env.resp.error)
    else
      let segments := parseAssemblyAISegmentsWithSpeakers env.resp
      .ok { text := jsOrOptString env.resp.text "",
            segments := segments,
            language := jsOrOptString env.resp.language_code "unknown",
            duration := jsOrOptNum env.resp.audio_duration env.probeDuration,
            speakerCount := countUniqueSpeakers segments }
  match inner with
  | .ok r => .ok r
  | .error e => .error ("Transcription failed: " ++ e)

/-- The transcript row created by storeTranscription (lines 266-275):
speakerCount or-else 1, null confidence; the id is opaque (cuid in the
source, a derived tag here). -/
def createdTranscriptRow (recordingId : String) (result : TranscriptionResult) : TranscriptRow :=
  { id := "t-" ++ recordingId,
    recordingId := recordingId,
    content := result.segments,
    rawTranscript := result.text,
    speakerCount := if result.speakerCount = 0 then 1 else result.speakerCount,
    confidenceScore := none,
    language := some result.language,
    speakerNames := none,
    speakerIdentified := false }

/-- storeTranscription (lines 264-292): creates the transcript row and
then writes the duration onto the recording when it is positive; the pair
carries the database after the writes that succeeded and the error of the
write that failed, if any. -/
def storeTranscription (db : DB) (recordingId : String) (result : TranscriptionResult) :
    DB × Option String :=
  match createTranscript db (createdTranscriptRow recordingId result) with
  | .error e => (db, some e)
  | .ok db1 =>
    if result.duration > 0 then
      match updateRecording db1 recordingId
              (fun r => { r with duration := some result.duration }) with
      | .ok db2 => (db2, none)
      | .error e => (db1, some e)
    else (db1, none)

/-- updateRecordingStatus (lines 297-308). -/
def updateRecordingStatus (db : DB) (recordingId status : String) : Except String DB :=
  updateRecording db recordingId fun r => { r with status := status }

/-- Outcome of one transcribeAudio run: the final database, the value
returned or error thrown, and whether the speaker resolver was invoked. -/
structure RunOutcome where
  db : DB
  result : Except String TranscriptionResult
  resolverInvoked : Bool

/-- The catch block of transcribeAudio (lines 99-103): set the recording
status to FAILED and rethrow; a failure of that status write itself
replaces the error. -/
def transcribeAudioCatch (db : DB) (recordingId : String) (e : String)
    (invoked : Bool) : RunOutcome :=
  match updateRecordingStatus db recordingId "FAILED" with
  | .ok db2 => { db := db2, result := .error e, resolverInvoked := invoked }
  | .error e2 => { db := db, result := .error e2, resolverInvoked := invoked }

/-- Lines 78-91: the speaker identification phase. The service is invoked
only when it exists and the speaker count is truthy and greater than 1;
an identification or persistence failure is caught and swallowed. The
flag records whether the service was invoked. -/
def resolverPhase (db2 : DB) (recordingId : String) (result : TranscriptionResult)
    (resolver : Option (Except String SpeakerMapping)) : DB × Bool :=
  match resolver with
  | none => (db2, false)
  | some outcome =>
    if result.speakerCount ≠ 0 ∧ result.speakerCount > 1 then
      match outcome with
      | .error _ => (db2, true)
      | .ok m =>
        match storeSpeakerMapping db2 recordingId m with
        | .ok db3 => (db3, true)
        | .error _ => (db2, true)
    else (db2, false)

/-- Lines 93-103: the final status write to COMPLETED; its own failure is
routed through the catch block. -/
def transcribeAudioFinish (db3 : DB) (recordingId : String)
    (result : TranscriptionResult) (invoked : Bool) : RunOutcome :=
  match updateRecordingStatus db3 recordingId "COMPLETED" with
  | .ok db4 => { db := db4, result := .ok result, resolverInvoked := invoked }
  | .error e => transcribeAudioCatch db3 recordingId e invoked

/-- transcribeAudio (lines 54-104): sets status TRANSCRIBING, transcribes,
stores the transcript, invokes the speaker identification service when it
is available and the speaker count is truthy and greater than 1 (its
failure, including a failure to persist the mapping, is swallowed), and
finally sets status COMPLETED. Any error before that is routed through
the catch block. -/
def transcribeAudio (db : DB) (recordingId : String) (env : RunEnv) : RunOutcome :=
  match updateRecordingStatus db recordingId "TRANSCRIBING" with
  | .error e => transcribeAudioCatch db recordingId e false
  | .ok db1 =>
    match transcribeDirectly env with
    | .error e => transcribeAudioCatch db1 recordingId e false
    | .ok result =>
      match storeTranscription db1 recordingId result with
      | (dbS, some e) => transcribeAudioCatch dbS recordingId e false
      | (db2, none) =>
        let (db3, invoked) := resolverPhase db2 recordingId result env.resolver
        transcribeAudioFinish db3 recordingId result invoked

/-- The TranscriptionResult value transcribeDirectly returns on a
non-error provider response. -/
def directResult (env : RunEnv) : TranscriptionResult :=
  { text := jsOrOptString env.resp.text "",
    segments := parseAssemblyAISegmentsWithSpeakers env.resp,
    language := jsOrOptString env.resp.language_code "unknown",
    duration := jsOrOptNum env.resp.audio_duration env.probeDuration,
    speakerCount := countUniqueSpeakers (parseAssemblyAISegmentsWithSpeakers env.resp) }

/-! ## getTranscription
(transcriptionService.ts, lines 313-382) -/

/-- A segment as returned by getTranscription: the stored fields plus the
speakerName attribute the overlay adds (absent when no overlay ran). -/
structure SegmentView where
  start : ℚ
  end_ : ℚ
  text : String
  speaker : Option String
  speakerName : Option String
deriving DecidableEq, Repr

/-- The recording sub-object of the getTranscription view. -/
structure RecordingView where
  id : String
  filename : String
  originalFilename : String
  duration : Option ℚ
  status : String
deriving DecidableEq, Repr

/-- The object getTranscription returns for an existing transcript. -/
structure TranscriptionView where
  id : String
  recordingId : String
  text : String
  segments : List SegmentView
  language : Option String
  speakerCount : Nat
  speakerNames : Option SpeakerMapping
  speakerIdentified : Bool
  confidenceScore : Option ℚ
  recording : RecordingView
deriving DecidableEq, Repr

/-- The overlay of lines 342-347: every segment keeps all its fields and
gains a speakerName, which is the mapped name when the segment speaker and
the mapping entry for it are both truthy, and the original speaker
otherwise. -/
def overlaySegment (m : SpeakerMapping) (seg : Segment) : SegmentView :=
  { start := seg.start, end_ := seg.end_, text := seg.text, speaker := seg.speaker,
    speakerName :=
      match seg.speaker with
      | none => seg.speaker
      | some sp =>
        if sp = "" then seg.speaker
        else
          match jsObjGet m sp with
          | some v => if v = "" then seg.speaker else some v
          | none => seg.speaker }

/-- A stored segment returned without overlay: no speakerName attribute. -/
def plainSegmentView (seg : Segment) : SegmentView :=
  { start := seg.start, end_ := seg.end_, text := seg.text, speaker := seg.speaker,
    speakerName := none }

/-- getTranscription: null is the not-found result for a missing
transcript; otherwise the stored content is parsed, the speakerNames
column is parsed when truthy (a parse failure is caught and treated as
absent), the overlay is applied when a mapping was parsed and the segment
list is non-empty, and the transcript and recording metadata are
assembled. A dangling recording relation would be a thrown type error. -/
def getTranscription (db : DB) (recordingId : String) :
    Except String (Option TranscriptionView) :=
  match findTranscript db recordingId with
  | none => .ok none
  | some t =>
    match findRecording db t.recordingId with
    | none => .error "TypeError: recording relation missing"
    | some rec =>
      let speakerNames : Option SpeakerMapping :=
        match t.speakerNames with
        | none => none
        | some s => if s = "" then none else decodeMapping s
      let segments : List SegmentView :=
        match speakerNames with
        | some m => if t.content.length > 0 then t.content.map (overlaySegment m)
                    else t.content.map plainSegmentView
        | none => t.content.map plainSegmentView
      .ok (some
        { id := t.id,
          recordingId := t.recordingId,
          text := t.rawTranscript,
          segments := segments,
          language := t.language,
          speakerCount := t.speakerCount,
          speakerNames := speakerNames,
          speakerIdentified := t.speakerIdentified,
          confidenceScore := t.confidenceScore,
          recording :=
            { id := rec.id, filename := rec.filename,
              originalFilename := rec.originalFilename,
              duration := rec.duration, status := rec.status } })

/-! ## Specification-side definitions used by refinement claims -/

/-- Modelled from the amended wording of claim C1: each utterance maps to
a segment with start and end divided by 1000, the utterance text, and a
speaker tag exactly when the utterance speaker id is present and
non-empty. -/
def specUtteranceSegment (u : Utterance) : Segment :=
  { start := u.start / 1000,
    end_ := u.end_ / 1000,
    text := u.text,
    speaker :=
      match u.speaker with
      | some id => if id = "" then none else some ("Speaker " ++ id)
      | none => none }

/-! ## Word-grouping loop step lemmas -/

/-- Step of the loop when nothing closes the segment. -/
lemma go_step_skip (i : Nat) (w : AAIWord) (rest : List AAIWord) (segs : List Segment)
    (cur : String) (st : ℚ) (curSpk : Option String)
    (hnc : speakerTagOf w.speaker = (if i = 0 then speakerTagOf w.speaker else curSpk))
    (hpu : endsSentencePunct w.text = false)
    (hdiv : ¬ (0 < i ∧ i % 50 = 0))
    (hrest : rest ≠ []) :
    segmentsFromWordsGo i (w :: rest) segs cur st curSpk
      = segmentsFromWordsGo (i + 1) rest segs (cur ++ w.text ++ " ")
          (if i = 0 then w.start / 1000 else st)
          (if i = 0 then speakerTagOf w.speaker else curSpk) := by
  have hcond : ¬ (speakerTagOf w.speaker ≠ (if i = 0 then speakerTagOf w.speaker else curSpk) ∨
      endsSentencePunct w.text = true ∨ (0 < i ∧ i % 50 = 0) ∨ rest = []) := by
    rintro (h | h | h | h)
    · exact h hnc
    · simp [hpu] at h
    · exact hdiv h
    · exact hrest h
  rw [segmentsFromWordsGo, if_neg hcond]

/-- Step of the loop at a boundary without a speaker change, when more
words remain: push the segment, reseed from the next word. -/
lemma go_step_push (i : Nat) (w w2 : AAIWord) (rest2 : List AAIWord) (segs : List Segment)
    (cur : String) (st : ℚ) (curSpk : Option String)
    (hnc : speakerTagOf w.speaker = (if i = 0 then speakerTagOf w.speaker else curSpk))
    (hbnd : endsSentencePunct w.text = true ∨ (0 < i ∧ i % 50 = 0)) :
    segmentsFromWordsGo i (w :: w2 :: rest2) segs cur st curSpk
      = segmentsFromWordsGo (i + 1) (w2 :: rest2) (segs ++ [pushedSeg i w cur st curSpk]) ""
          (jsOrNum (w2.start / 1000) 0) (speakerTagOf w2.speaker) := by
  rw [segmentsFromWordsGo]
  rw [if_pos]
  · rw [if_neg (fun h => h hnc)]
    rfl
  · rcases hbnd with h | h
    · exact Or.inr (Or.inl h)
    · exact Or.inr (Or.inr (Or.inl h))

/-- Step of the loop at the last word without a speaker change. -/
lemma go_step_last (i : Nat) (w : AAIWord) (segs : List Segment)
    (cur : String) (st : ℚ) (curSpk : Option String)
    (hnc : speakerTagOf w.speaker = (if i = 0 then speakerTagOf w.speaker else curSpk)) :
    segmentsFromWordsGo i [w] segs cur st curSpk
      = segs ++ [pushedSeg i w cur st curSpk] := by
  rw [segmentsFromWordsGo]
  rw [if_pos (Or.inr (Or.inr (Or.inr rfl)))]
  rw [if_neg (fun h => h hnc)]
  rfl

/-- Step of the loop at a speaker change: push the segment, seed the next
buffer with the triggering word. -/
lemma go_step_change (i : Nat) (w : AAIWord) (rest : List AAIWord) (segs : List Segment)
    (cur : String) (st : ℚ) (curSpk : Option String)
    (hc : speakerTagOf w.speaker ≠ (if i = 0 then speakerTagOf w.speaker else curSpk)) :
    segmentsFromWordsGo i (w :: rest) segs cur st curSpk
      = segmentsFromWordsGo (i + 1) rest (segs ++ [pushedSeg i w cur st curSpk])
          (w.text ++ " ") (w.start / 1000) (speakerTagOf w.speaker) := by
  rw [segmentsFromWordsGo]
  rw [if_pos (Or.inl hc)]
  rw [if_pos hc]
  rfl

/-- Segment count of the grouping loop on a constant-speaker,
punctuation-free word list: one segment per boundary index. -/
lemma segmentsFromWordsGo_length_const (spk : Option String) :
    ∀ (ws : List AAIWord) (i : Nat) (segs : List Segment) (cur : String) (st : ℚ)
      (curSpk : Option String),
      (∀ w ∈ ws, speakerTagOf w.speaker = spk) →
      (∀ w ∈ ws, endsSentencePunct w.text = false) →
      (i = 0 ∨ curSpk = spk) →
      (segmentsFromWordsGo i ws segs cur st curSpk).length
        = segs.length + ((List.range' i ws.length).filter (wordBoundary (i + ws.length))).length := by
  intro ws
  induction ws with
  | nil =>
    intro i segs cur st curSpk _ _ _
    simp [segmentsFromWordsGo]
  | cons w rest ih =>
    intro i segs cur st curSpk hspk hpunct hcur
    have hw : speakerTagOf w.speaker = spk := hspk w (by simp)
    have hp : endsSentencePunct w.text = false := hpunct w (by simp)
    have hspk2 : ∀ w2 ∈ rest, speakerTagOf w2.speaker = spk :=
      fun w2 hw2 => hspk w2 (by simp [hw2])
    have hpunct2 : ∀ w2 ∈ rest, endsSentencePunct w2.text = false :=
      fun w2 hw2 => hpunct w2 (by simp [hw2])
    have hcs : (if i = 0 then speakerTagOf w.speaker else curSpk) = spk := by
      rcases hcur with h | h
      · simp [h, hw]
      · by_cases hi : i = 0 <;> simp [hi, hw, h]
    have hnc : speakerTagOf w.speaker = (if i = 0 then speakerTagOf w.speaker else curSpk) := by
      rw [hcs, hw]
    cases rest with
    | nil =>
      rw [go_step_last i w segs cur st curSpk hnc]
      have hb : wordBoundary (i + 1) i = true := by
        simp [wordBoundary]
      simp [List.range'_one, hb]
    | cons w2 rest2 =>
      have hn : i + 1 + (w2 :: rest2).length = i + (w :: w2 :: rest2).length := by
        simp
        omega
      by_cases hdiv : 0 < i ∧ i % 50 = 0
      · rw [go_step_push i w w2 rest2 segs cur st curSpk hnc (Or.inr hdiv)]
        rw [ih (i + 1) (segs ++ [pushedSeg i w cur st curSpk]) ""
            (jsOrNum (w2.start / 1000) 0) (speakerTagOf w2.speaker)
            hspk2 hpunct2 (Or.inr (hspk2 w2 (by simp)))]
        rw [hn]
        have hb : wordBoundary (i + (w :: w2 :: rest2).length) i = true := by
          simp [wordBoundary, hdiv.1, hdiv.2]
        have hr : (List.range' i (w :: w2 :: rest2).length)
            = i :: List.range' (i + 1) (w2 :: rest2).length := by
          simp [List.range'_succ]
        rw [hr, List.filter_cons, hb]
        simp
        omega
      · rw [go_step_skip i w (w2 :: rest2) segs cur st curSpk hnc hp hdiv (by simp)]
        rw [ih (i + 1) segs (cur ++ w.text ++ " ")
            (if i = 0 then w.start / 1000 else st)
            (if i = 0 then speakerTagOf w.speaker else curSpk)
            hspk2 hpunct2 (Or.inr hcs)]
        rw [hn]
        have hb : wordBoundary (i + (w :: w2 :: rest2).length) i = false := by
          simp only [wordBoundary, Bool.or_eq_false_iff, Bool.and_eq_false_iff,
            decide_eq_false_iff_not]
          constructor
          · by_cases h0 : 0 < i
            · right
              exact fun hm => hdiv ⟨h0, hm⟩
            · left
              simpa using h0
          · simp only [List.length_cons]
            omega
        have hr : (List.range' i (w :: w2 :: rest2).length)
            = i :: List.range' (i + 1) (w2 :: rest2).length := by
          simp [List.range'_succ]
        rw [hr, List.filter_cons, hb]
        simp

/-! ## Claim C4 helper lemmas -/

/-- Division by 1000 preserves order. -/
lemma div1000_mono {a b : ℚ} (h : a ≤ b) : a / 1000 ≤ b / 1000 := by
  gcongr

/-- The or-else-0 guard on a segment start is the identity. -/
lemma jsOrNum_zero (q : ℚ) : jsOrNum q 0 = q := by
  unfold jsOrNum
  split <;> simp_all

/-- The grouping loop never returns an empty list when it has a word left
or a segment already accumulated. -/
lemma segmentsFromWordsGo_ne_nil :
    ∀ (ws : List AAIWord) (i : Nat) (segs : List Segment) (cur : String) (st : ℚ)
      (curSpk : Option String),
      segs ≠ [] ∨ ws ≠ [] →
      segmentsFromWordsGo i ws segs cur st curSpk ≠ [] := by
  intro ws
  induction ws with
  | nil =>
    intro i segs cur st curSpk h
    rcases h with h | h
    · simpa [segmentsFromWordsGo] using h
    · simp at h
  | cons w rest ih =>
    intro i segs cur st curSpk _
    by_cases hch : speakerTagOf w.speaker ≠ (if i = 0 then speakerTagOf w.speaker else curSpk)
    · rw [go_step_change i w rest segs cur st curSpk hch]
      cases rest with
      | nil => simp [segmentsFromWordsGo]
      | cons w2 rest2 => exact ih _ _ _ _ _ (Or.inl (by simp))
    · push_neg at hch
      cases rest with
      | nil =>
        rw [go_step_last i w segs cur st curSpk hch]
        simp
      | cons w2 rest2 =>
        by_cases hcond : endsSentencePunct w.text = true ∨ (0 < i ∧ i % 50 = 0)
        · rw [go_step_push i w w2 rest2 segs cur st curSpk hch hcond]
          exact ih _ _ _ _ _ (Or.inl (by simp))
        · push_neg at hcond
          rw [go_step_skip i w (w2 :: rest2) segs cur st curSpk hch
              (by simpa using hcond.1) (by simpa using hcond.2) (by simp)]
          exact ih _ _ _ _ _ (Or.inr (by simp))

/-- The grouping loop emits segments with non-decreasing start times when
the words come sorted by start time. -/
lemma segmentsFromWordsGo_sorted :
    ∀ (ws : List AAIWord) (i : Nat) (segs : List Segment) (cur : String) (st : ℚ)
      (curSpk : Option String),
      List.Pairwise wordLE ws →
      (i = 0 → segs = []) →
      (i ≠ 0 → (∀ w2 ∈ ws, st ≤ w2.start / 1000) ∧ (∀ s ∈ segs, s.start ≤ st)) →
      List.Pairwise segLE segs →
      List.Pairwise segLE (segmentsFromWordsGo i ws segs cur st curSpk) := by
  intro ws
  induction ws with
  | nil =>
    intro i segs cur st curSpk _ _ _ hsorted
    simpa [segmentsFromWordsGo] using hsorted
  | cons w rest ih =>
    intro i segs cur st curSpk hws h0 hst hsorted
    have hwrest : List.Pairwise wordLE rest := hws.tail
    have hwhead : ∀ w2 ∈ rest, w.start ≤ w2.start := by
      intro w2 hw2
      exact List.rel_of_pairwise_cons hws hw2
    -- the updated segment start
    have fact1 : ∀ w2 ∈ w :: rest, (if i = 0 then w.start / 1000 else st) ≤ w2.start / 1000 := by
      intro w2 hw2
      by_cases hi : i = 0
      · simp only [hi, if_true]
        rcases List.mem_cons.mp hw2 with h | h
        · rw [h]
        · exact div1000_mono (hwhead w2 h)
      · simp only [hi, if_false]
        exact (hst hi).1 w2 hw2
    have fact2 : ∀ s ∈ segs, s.start ≤ (if i = 0 then w.start / 1000 else st) := by
      intro s hs
      by_cases hi : i = 0
      · rw [h0 hi] at hs
        simp at hs
      · simp only [hi, if_false]
        exact (hst hi).2 s hs
    have hpush : List.Pairwise segLE (segs ++ [pushedSeg i w cur st curSpk]) := by
      rw [List.pairwise_append]
      refine ⟨hsorted, by simp, ?_⟩
      intro s hs b hb
      rw [List.mem_singleton] at hb
      rw [hb]
      exact fact2 s hs
    have hpushmem : ∀ s ∈ segs ++ [pushedSeg i w cur st curSpk],
        s.start ≤ (if i = 0 then w.start / 1000 else st) := by
      intro s hs
      rcases List.mem_append.mp hs with h | h
      · exact fact2 s h
      · rw [List.mem_singleton] at h
        rw [h]
        exact le_refl _
    by_cases hch : speakerTagOf w.speaker ≠ (if i = 0 then speakerTagOf w.speaker else curSpk)
    · rw [go_step_change i w rest segs cur st curSpk hch]
      refine ih (i + 1) _ _ _ _ hwrest (by simp) (fun _ => ⟨?_, ?_⟩) hpush
      · intro w2 hw2
        exact div1000_mono (hwhead w2 hw2)
      · intro s hs
        calc s.start ≤ (if i = 0 then w.start / 1000 else st) := hpushmem s hs
          _ ≤ w.start / 1000 := fact1 w (by simp)
    · push_neg at hch
      cases rest with
      | nil =>
        rw [go_step_last i w segs cur st curSpk hch]
        exact hpush
      | cons w2 rest2 =>
        by_cases hcond : endsSentencePunct w.text = true ∨ (0 < i ∧ i % 50 = 0)
        · rw [go_step_push i w w2 rest2 segs cur st curSpk hch hcond]
          rw [jsOrNum_zero]
          refine ih (i + 1) _ _ _ _ hwrest (by simp) (fun _ => ⟨?_, ?_⟩) hpush
          · intro w3 hw3
            rcases List.mem_cons.mp hw3 with h | h
            · rw [h]
            · exact div1000_mono (List.rel_of_pairwise_cons hwrest h)
          · intro s hs
            calc s.start ≤ (if i = 0 then w.start / 1000 else st) := hpushmem s hs
              _ ≤ w2.start / 1000 := fact1 w2 (by simp)
        · push_neg at hcond
          rw [go_step_skip i w (w2 :: rest2) segs cur st curSpk hch
              (by simpa using hcond.1) (by simpa using hcond.2) (by simp)]
          refine ih (i + 1) _ _ _ _ hwrest (by simp) (fun _ => ⟨?_, ?_⟩) hsorted
          · intro w3 hw3
            exact fact1 w3 (List.mem_cons_of_mem w hw3)
          · exact fact2

/-! ## Claim C1 -/

/-- Claim C1, counterexample: an utterance whose speaker id is present but
empty. The claim says the segment speaker must be the string Speaker
followed by the id; the code drops the tag because the empty id is falsy. -/
theorem c1_counterexample :
    (parseAssemblyAISegmentsWithSpeakers
      { status := "completed", error := none, text := some "hi",
        language_code := none, audio_duration := none,
        utterances := some [⟨0, 1000, "hi", some ""⟩],
        words := none }).map Segment.speaker ≠ [some ("Speaker " ++ "")] := by
  decide

/-- Claim C1, amended: for every provider response carrying an utterances
array, the normalizer output is exactly the one-to-one image of the
utterances, with start and end divided by 1000, the utterance text kept,
and the speaker tag Speaker plus id attached exactly when the id is
present and non-empty. -/
theorem c1_utterances_map_exactly (r : ProviderResponse) (us : List Utterance)
    (h : r.utterances = some us) :
    parseAssemblyAISegmentsWithSpeakers r = us.map specUtteranceSegment := by
  unfold parseAssemblyAISegmentsWithSpeakers
  rw [h]
  refine List.map_congr_left fun u _ => ?_
  unfold specUtteranceSegment speakerTagOf jsOrString
  rcases u with ⟨st, en, tx, sp⟩
  by_cases ht : tx = "" <;> cases sp <;> simp [ht]

/-- Witness for C1 at a concrete two-utterance response. -/
theorem c1_utterances_map_exactly_witness :
    parseAssemblyAISegmentsWithSpeakers
      { status := "completed", error := none, text := some "hi hello",
        language_code := some "en", audio_duration := some 4,
        utterances := some [⟨0, 2000, "hi", some "A"⟩, ⟨2000, 4000, "hello", some "B"⟩],
        words := none }
    = [⟨0, 2000, "hi", some "A"⟩, ⟨2000, 4000, "hello", some "B"⟩].map specUtteranceSegment :=
  c1_utterances_map_exactly _ _ rfl

/-! ## Claim C3 -/

/-- Claim C3: evaluation of the word-grouping loop at a three-word input
whose speaker flips on the second word. The claim says the segment closed
at the change excludes the triggering word; the code appends the word to
the closing segment (and also starts the next segment with it), so the
first segment text is hi yo, not hi, and the two segments overlap in
time. -/
theorem c3_speaker_change_duplicates_word :
    parseAssemblyAISegmentsWithSpeakers
      { status := "completed", error := none, text := some "hi yo ok",
        language_code := none, audio_duration := none,
        utterances := none,
        words := some [⟨0, 500, "hi", some "A"⟩, ⟨500, 1000, "yo", some "B"⟩,
                       ⟨1000, 1500, "ok", some "B"⟩] }
    = [⟨0 / 1000, 1000 / 1000, "hi yo", some ("Speaker " ++ "A")⟩,
       ⟨500 / 1000, 1500 / 1000, "yo ok", some ("Speaker " ++ "B")⟩] := rfl

/-! ## Claim C5 -/

/-- Claim C5, counterexample: a stored mapping sending the tag Speaker A
to the empty name. The claim says the output carries the mapped name; the
code falls back to the original tag because the empty name is falsy. -/
theorem c5_counterexample :
    (applySpeakerNamesToSegments [("Speaker A", "")]
      [⟨0, 1, "hi", some "Speaker A"⟩]).map Segment.speaker ≠ [some ""] := by
  decide

/-- The per-segment transform never touches the start, end and text
fields. -/
lemma applyMappingToSegment_fields (m : SpeakerMapping) (seg : Segment) :
    (applyMappingToSegment m seg).start = seg.start ∧
    (applyMappingToSegment m seg).end_ = seg.end_ ∧
    (applyMappingToSegment m seg).text = seg.text :=
  ⟨rfl, rfl, rfl⟩

/-- Claim C5, amended: the transform is deterministic and length
preserving; a segment whose non-empty tag has a non-empty mapped name
carries that name; a segment whose tag has no entry, or an empty mapped
name, keeps its original tag; a segment with an absent or empty tag is
looked up under the empty-string key and is only renamed when that key
has a non-empty entry; no segment is dropped or given an absent speaker
unless its speaker was already absent. -/
theorem c5_apply_names_pointwise (m : SpeakerMapping) (segments : List Segment)
    (i : Nat) (seg : Segment) (hseg : segments[i]? = some seg) :
    (applySpeakerNamesToSegments m segments).length = segments.length ∧
    ∃ out, (applySpeakerNamesToSegments m segments)[i]? = some out ∧
      out.start = seg.start ∧ out.end_ = seg.end_ ∧ out.text = seg.text ∧
      (∀ sp v, seg.speaker = some sp → sp ≠ "" → jsObjGet m sp = some v → v ≠ "" →
        out.speaker = some v) ∧
      (∀ sp, seg.speaker = some sp → sp ≠ "" →
        jsObjGet m sp = none ∨ jsObjGet m sp = some "" → out.speaker = some sp) ∧
      ((seg.speaker = none ∨ seg.speaker = some "") →
        (∀ v, jsObjGet m "" = some v → v ≠ "" → out.speaker = some v) ∧
        (jsObjGet m "" = none ∨ jsObjGet m "" = some "" → out.speaker = seg.speaker)) := by
  constructor
  · simp [applySpeakerNamesToSegments]
  · refine ⟨applyMappingToSegment m seg, ?_, ?_⟩
    · simp [applySpeakerNamesToSegments, List.getElem?_map, hseg]
    · obtain ⟨h1, h2, h3⟩ := applyMappingToSegment_fields m seg
      have hout : (applyMappingToSegment m seg).speaker = mappedSpeaker m seg.speaker := rfl
      refine ⟨h1, h2, h3, ?_, ?_, ?_⟩
      · intro sp v hsp hne hm hv
        rw [hout, hsp]
        unfold mappedSpeaker jsOrOptString
        simp [hne, hm, hv]
      · intro sp hsp hne hm
        rw [hout, hsp]
        unfold mappedSpeaker jsOrOptString
        rcases hm with hm | hm <;> simp [hne, hm]
      · intro hsp
        constructor
        · intro v hm hv
          rw [hout]
          unfold mappedSpeaker jsOrOptString
          rcases hsp with hsp | hsp <;> rw [hsp] <;> simp [hm, hv]
        · intro hm
          rw [hout]
          unfold mappedSpeaker jsOrOptString
          rcases hsp with hsp | hsp <;> rw [hsp] <;>
            rcases hm with hm | hm <;> simp [hm]

/-- Witness for C5: a mapping resolving Speaker A applied to one tagged
and one untagged segment. -/
theorem c5_apply_names_pointwise_witness :
    (applySpeakerNamesToSegments [("Speaker A", "Jane Doe")]
      [⟨0, 1, "hi", some "Speaker A"⟩, ⟨1, 2, "yo", some "Speaker B"⟩]).length = 2 ∧
    ∃ out, (applySpeakerNamesToSegments [("Speaker A", "Jane Doe")]
      [⟨0, 1, "hi", some "Speaker A"⟩, ⟨1, 2, "yo", some "Speaker B"⟩])[0]? = some out ∧
      out.start = 0 ∧ out.end_ = 1 ∧ out.text = "hi" ∧
      (∀ sp v, some "Speaker A" = some sp → sp ≠ "" →
        jsObjGet [("Speaker A", "Jane Doe")] sp = some v → v ≠ "" → out.speaker = some v) ∧
      (∀ sp, some "Speaker A" = some sp → sp ≠ "" →
        jsObjGet [("Speaker A", "Jane Doe")] sp = none ∨
          jsObjGet [("Speaker A", "Jane Doe")] sp = some "" → out.speaker = some sp) ∧
      ((some "Speaker A" = (none : Option String) ∨ some "Speaker A" = some "") →
        (∀ v, jsObjGet [("Speaker A", "Jane Doe")] "" = some v → v ≠ "" →
          out.speaker = some v) ∧
        (jsObjGet [("Speaker A", "Jane Doe")] "" = none ∨
          jsObjGet [("Speaker A", "Jane Doe")] "" = some "" →
          out.speaker = some "Speaker A")) := by
  have h := c5_apply_names_pointwise [("Speaker A", "Jane Doe")]
    [⟨0, 1, "hi", some "Speaker A"⟩, ⟨1, 2, "yo", some "Speaker B"⟩] 0
    ⟨0, 1, "hi", some "Speaker A"⟩ rfl
  simpa using h

/-! ## Claim C2 -/

/-- Claim C2, counterexample: 51 words with constant speaker A, no
punctuation. The claim predicts ceil(51/50) = 2 segments; the code closes
its first segment only after appending the word at index 50, which is
also the last word, so exactly one segment is produced. -/
theorem c2_counterexample :
    (parseAssemblyAISegmentsWithSpeakers
      { status := "completed", error := none, text := none,
        language_code := none, audio_duration := none, utterances := none,
        words := some (List.replicate 51 ⟨0, 0, "w", some "A"⟩) }).length ≠ 2 := by
  decide

set_option maxRecDepth 8000 in
/-- Claim C2, amended: on a words-only response with no speaker changes
and no sentence punctuation, the loop closes a segment exactly at the
positive multiples of 50 and at the last word, so the segment count is
the number of such indices (not ceil of n over 50); in particular 51
words with constant speaker A produce exactly one segment holding all 51
words, tagged Speaker A. -/
theorem c2_word_chunking :
    (∀ (r : ProviderResponse) (ws : List AAIWord) (spk : Option String),
      r.utterances = none → r.words = some ws →
      (∀ w ∈ ws, speakerTagOf w.speaker = spk) →
      (∀ w ∈ ws, endsSentencePunct w.text = false) →
      (parseAssemblyAISegmentsWithSpeakers r).length
        = ((List.range ws.length).filter (wordBoundary ws.length)).length) ∧
    parseAssemblyAISegmentsWithSpeakers
      { status := "completed", error := none, text := none,
        language_code := none, audio_duration := none, utterances := none,
        words := some (List.replicate 51 ⟨0, 0, "w", some "A"⟩) }
      = [{ start := 0 / 1000, end_ := 0 / 1000,
           text := String.intercalate " " (List.replicate 51 "w"),
           speaker := some ("Speaker " ++ "A") }] := by
  constructor
  · intro r ws spk hu hw hspk hpunct
    unfold parseAssemblyAISegmentsWithSpeakers
    rw [hu, hw]
    rw [segmentsFromWordsGo_length_const spk ws 0 [] "" 0 none hspk hpunct (Or.inl rfl)]
    simp [List.range_eq_range']
  · rfl

/-- Witness for C2 at a concrete three-word constant-speaker input. -/
theorem c2_word_chunking_witness :
    (parseAssemblyAISegmentsWithSpeakers
      { status := "completed", error := none, text := none,
        language_code := none, audio_duration := none, utterances := none,
        words := some [⟨0, 400, "a", some "A"⟩, ⟨400, 800, "b", some "A"⟩,
                       ⟨800, 1200, "c", some "A"⟩] }).length
      = ((List.range 3).filter (wordBoundary 3)).length :=
  c2_word_chunking.1
    { status := "completed", error := none, text := none,
      language_code := none, audio_duration := none, utterances := none,
      words := some [⟨0, 400, "a", some "A"⟩, ⟨400, 800, "b", some "A"⟩,
                     ⟨800, 1200, "c", some "A"⟩] }
    [⟨0, 400, "a", some "A"⟩, ⟨400, 800, "b", some "A"⟩, ⟨800, 1200, "c", some "A"⟩]
    (some ("Speaker " ++ "A")) rfl rfl (by decide) (by decide)

/-! ## Claim C4 -/

/-- Claim C4, counterexample: an empty utterances array is truthy in
JavaScript, so the utterances branch is taken and returns the empty
segment list even though the transcript text hi is non-empty, violating
the claimed non-emptiness. -/
theorem c4_counterexample :
    parseAssemblyAISegmentsWithSpeakers
      { status := "completed", error := none, text := some "hi",
        language_code := none, audio_duration := none,
        utterances := some ([] : List Utterance), words := none } = [] := rfl

/-- Claim C4, amended: whenever any utterances or words array present in
the response is non-empty and sorted by start time, the normalizer
returns a non-empty segment list ordered by non-decreasing start time;
this holds for all three input shapes (the no-array fallback always
yields one segment). -/
theorem c4_nonempty_sorted (r : ProviderResponse)
    (hu : ∀ us, r.utterances = some us →
      us ≠ [] ∧ List.Pairwise (fun a b : Utterance => a.start ≤ b.start) us)
    (hw : ∀ ws, r.utterances = none → r.words = some ws →
      ws ≠ [] ∧ List.Pairwise wordLE ws) :
    parseAssemblyAISegmentsWithSpeakers r ≠ [] ∧
    List.Pairwise segLE (parseAssemblyAISegmentsWithSpeakers r) := by
  unfold parseAssemblyAISegmentsWithSpeakers
  cases hus : r.utterances with
  | some us =>
    obtain ⟨hne, hsort⟩ := hu us hus
    constructor
    · simpa using hne
    · rw [List.pairwise_map]
      exact hsort.imp fun hab => div1000_mono hab
  | none =>
    cases hws : r.words with
    | some ws =>
      obtain ⟨hne, hsort⟩ := hw ws hus hws
      constructor
      · exact segmentsFromWordsGo_ne_nil ws 0 [] "" 0 none (Or.inr hne)
      · exact segmentsFromWordsGo_sorted ws 0 [] "" 0 none hsort
          (fun _ => rfl) (fun h => absurd rfl h) List.Pairwise.nil
    | none =>
      constructor
      · simp
      · simp

/-- Witness for C4 at the no-array fallback shape. -/
theorem c4_nonempty_sorted_witness :
    parseAssemblyAISegmentsWithSpeakers
      { status := "completed", error := none, text := some "hello world",
        language_code := none, audio_duration := some 7,
        utterances := none, words := none } ≠ [] ∧
    List.Pairwise segLE
      (parseAssemblyAISegmentsWithSpeakers
        { status := "completed", error := none, text := some "hello world",
          language_code := none, audio_duration := some 7,
          utterances := none, words := none }) :=
  c4_nonempty_sorted
    { status := "completed", error := none, text := some "hello world",
      language_code := none, audio_duration := some 7,
      utterances := none, words := none }
    (fun _ h => nomatch h) (fun _ _ h => nomatch h)

/-! ## Database helper lemmas -/

/-- Updating by id and then looking the id up yields the updated row,
when the update preserves ids. -/
lemma find?_map_update_id (l : List RecordingRow) (rid : String)
    (f : RecordingRow → RecordingRow) (hf : ∀ r, (f r).id = r.id) :
    (l.map fun r => if r.id = rid then f r else r).find? (fun r => r.id = rid)
      = (l.find? fun r => r.id = rid).map f := by
  induction l with
  | nil => rfl
  | cons a tl ih =>
    by_cases h : a.id = rid
    · rw [List.map_cons, if_pos h, List.find?_cons_of_pos _ (by simp [hf, h]),
         List.find?_cons_of_pos _ (by simp [h])]
      rfl
    · rw [List.map_cons, if_neg h, List.find?_cons_of_neg _ (by simp [h]),
         List.find?_cons_of_neg _ (by simp [h]), ih]

/-- The transcript analogue, keyed by recordingId. -/
lemma find?_map_update_rid (l : List TranscriptRow) (rid : String)
    (f : TranscriptRow → TranscriptRow) (hf : ∀ t, (f t).recordingId = t.recordingId) :
    (l.map fun t => if t.recordingId = rid then f t else t).find? (fun t => t.recordingId = rid)
      = (l.find? fun t => t.recordingId = rid).map f := by
  induction l with
  | nil => rfl
  | cons a tl ih =>
    by_cases h : a.recordingId = rid
    · rw [List.map_cons, if_pos h, List.find?_cons_of_pos _ (by simp [hf, h]),
         List.find?_cons_of_pos _ (by simp [h])]
      rfl
    · rw [List.map_cons, if_neg h, List.find?_cons_of_neg _ (by simp [h]),
         List.find?_cons_of_neg _ (by simp [h]), ih]

/-- A successful recording update: the guard holds, the row is mapped. -/
lemma updateRecording_eq_ok (db : DB) (rid : String) (f : RecordingRow → RecordingRow)
    (h : (findRecording db rid).isSome) :
    updateRecording db rid f
      = .ok { db with recordings := db.recordings.map fun r => if r.id = rid then f r else r } := by
  unfold updateRecording
  unfold findRecording at h
  rw [if_pos h]

/-- Lookup after a successful id-preserving recording update. -/
lemma findRecording_update (db : DB) (rid : String) (f : RecordingRow → RecordingRow)
    (hf : ∀ r, (f r).id = r.id) :
    findRecording { db with recordings := db.recordings.map fun r => if r.id = rid then f r else r } rid
      = (findRecording db rid).map f := by
  unfold findRecording
  exact find?_map_update_id db.recordings rid f hf

/-- A successful transcript creation: no existing row, the new row is
appended. -/
lemma createTranscript_eq_ok (db : DB) (row : TranscriptRow)
    (h : findTranscript db row.recordingId = none) :
    createTranscript db row = .ok { db with transcripts := db.transcripts ++ [row] } := by
  unfold createTranscript
  unfold findTranscript at h
  rw [if_neg (by simp [h])]

/-- Lookup of the appended transcript row. -/
lemma findTranscript_append_self (db : DB) (row : TranscriptRow)
    (h : findTranscript db row.recordingId = none) :
    findTranscript { db with transcripts := db.transcripts ++ [row] } row.recordingId = some row := by
  unfold findTranscript at h ⊢
  rw [List.find?_append, h]
  simp

/-- A successful transcript update: the guard holds, the row is mapped. -/
lemma updateTranscript_eq_ok (db : DB) (rid : String) (f : TranscriptRow → TranscriptRow)
    (h : (findTranscript db rid).isSome) :
    updateTranscript db rid f
      = .ok { db with transcripts := db.transcripts.map fun t => if t.recordingId = rid then f t else t } := by
  unfold updateTranscript
  unfold findTranscript at h
  rw [if_pos h]

/-- Lookup after a successful key-preserving transcript update. -/
lemma findTranscript_update (db : DB) (rid : String) (f : TranscriptRow → TranscriptRow)
    (hf : ∀ t, (f t).recordingId = t.recordingId) :
    findTranscript { db with transcripts := db.transcripts.map fun t => if t.recordingId = rid then f t else t } rid
      = (findTranscript db rid).map f := by
  unfold findTranscript
  exact find?_map_update_rid db.transcripts rid f hf

/-! ## Claim C6 -/

/-- Claim C6: when the provider reports an error status, the run throws
an error carrying the provider message (wrapped by the two catch-block
prefixes), the recording status ends FAILED, and the transcripts table is
untouched, so no Transcript row is created for the recording. -/
theorem c6_provider_error_fails (db : DB) (rid : String) (env : RunEnv) (m : String)
    (hrec : (findRecording db rid).isSome)
    (hst : env.resp.status = "error")
    (hmsg : env.resp.error = some m) :
    (transcribeAudio db rid env).result
        = .error ("Transcription failed: " ++ ("AssemblyAI transcription failed: " ++ m)) ∧
    (findRecording (transcribeAudio db rid env).db rid).map RecordingRow.status
        = some "FAILED" ∧
    (transcribeAudio db rid env).db.transcripts = db.transcripts := by
  obtain ⟨r0, hr0⟩ := Option.isSome_iff_exists.mp hrec
  have hdir : transcribeDirectly env
      = .error ("Transcription failed: " ++ ("AssemblyAI transcription failed: " ++ m)) := by
    unfold transcribeDirectly
    rw [if_pos hst, hmsg]
    rfl
  have h1 := updateRecording_eq_ok db rid (fun r => { r with status := "TRANSCRIBING" }) hrec
  have hfind1 : findRecording { db with recordings := db.recordings.map (fun r => if r.id = rid then { r with status := "TRANSCRIBING" } else r) } rid = (findRecording db rid).map (fun r => { r with status := "TRANSCRIBING" }) :=
    findRecording_update db rid _ (fun _ => rfl)
  have hrec1 : (findRecording { db with recordings := db.recordings.map (fun r => if r.id = rid then { r with status := "TRANSCRIBING" } else r) } rid).isSome := by
    rw [hfind1, hr0]
    rfl
  have h2 := updateRecording_eq_ok _ rid (fun r => { r with status := "FAILED" }) hrec1
  have hfind2 := findRecording_update { db with recordings := db.recordings.map (fun r => if r.id = rid then { r with status := "TRANSCRIBING" } else r) } rid (fun r => { r with status := "FAILED" }) (fun _ => rfl)
  unfold transcribeAudio transcribeAudioCatch updateRecordingStatus
  simp only [h1, hdir, h2]
  refine ⟨trivial, ?_, trivial⟩
  rw [hfind2, hfind1, hr0]
  rfl

/-- Witness for C6 on a one-recording database. -/
theorem c6_provider_error_fails_witness :
    (transcribeAudio
        { recordings := [{ id := "r1", filename := "f.mp3", originalFilename := "f.mp3",
                           duration := none, status := "PROCESSING" }], transcripts := [] }
        "r1"
        { resp := { status := "error", error := some "boom", text := none,
                    language_code := none, audio_duration := none,
                    utterances := none, words := none },
          probeDuration := 0, resolver := none }).result
        = .error ("Transcription failed: " ++ ("AssemblyAI transcription failed: " ++ "boom")) ∧
    (findRecording (transcribeAudio
        { recordings := [{ id := "r1", filename := "f.mp3", originalFilename := "f.mp3",
                           duration := none, status := "PROCESSING" }], transcripts := [] }
        "r1"
        { resp := { status := "error", error := some "boom", text := none,
                    language_code := none, audio_duration := none,
                    utterances := none, words := none },
          probeDuration := 0, resolver := none }).db "r1").map RecordingRow.status
        = some "FAILED" ∧
    (transcribeAudio
        { recordings := [{ id := "r1", filename := "f.mp3", originalFilename := "f.mp3",
                           duration := none, status := "PROCESSING" }], transcripts := [] }
        "r1"
        { resp := { status := "error", error := some "boom", text := none,
                    language_code := none, audio_duration := none,
                    utterances := none, words := none },
          probeDuration := 0, resolver := none }).db.transcripts
        = ({ recordings := [{ id := "r1", filename := "f.mp3", originalFilename := "f.mp3",
                              duration := none, status := "PROCESSING" }], transcripts := [] } : DB).transcripts :=
  c6_provider_error_fails _ "r1" _ "boom" rfl rfl rfl

/-! ## Success-path lemmas for the orchestrator -/

/-- transcribeDirectly succeeds exactly with that value when the provider
status is not the error status. -/
lemma transcribeDirectly_ok (env : RunEnv) (hok : env.resp.status ≠ "error") :
    transcribeDirectly env = .ok (directResult env) := by
  unfold transcribeDirectly directResult
  rw [if_neg hok]

/-- Two databases with the same transcripts table agree on transcript
lookups. -/
lemma findTranscript_ext (db db2 : DB) (rid : String)
    (h : db2.transcripts = db.transcripts) :
    findTranscript db2 rid = findTranscript db rid := by
  unfold findTranscript
  rw [h]

/-- storeTranscription on a fresh recording id: both writes succeed, the
created row is retrievable, and recording statuses are untouched. -/
lemma storeTranscription_success (db1 : DB) (rid : String) (result : TranscriptionResult)
    (hrec1 : (findRecording db1 rid).isSome)
    (hnone : findTranscript db1 rid = none) :
    ∃ db2, storeTranscription db1 rid result = (db2, none) ∧
      findTranscript db2 rid = some (createdTranscriptRow rid result) ∧
      (findRecording db2 rid).map RecordingRow.status
        = (findRecording db1 rid).map RecordingRow.status := by
  have hcr : createTranscript db1 (createdTranscriptRow rid result)
      = .ok { db1 with transcripts := db1.transcripts ++ [createdTranscriptRow rid result] } :=
    createTranscript_eq_ok db1 _ hnone
  have hft2a : findTranscript { db1 with transcripts := db1.transcripts ++ [createdTranscriptRow rid result] } rid
      = some (createdTranscriptRow rid result) :=
    findTranscript_append_self db1 _ hnone
  unfold storeTranscription
  by_cases hdur : result.duration > 0
  · have hrec2a : (findRecording { db1 with transcripts := db1.transcripts ++ [createdTranscriptRow rid result] } rid).isSome := hrec1
    have hup := updateRecording_eq_ok { db1 with transcripts := db1.transcripts ++ [createdTranscriptRow rid result] } rid (fun r => { r with duration := some result.duration }) hrec2a
    simp only [hcr, if_pos hdur, hup]
    refine ⟨_, rfl, ?_, ?_⟩
    · exact hft2a
    · show ((db1.recordings.map (fun r => if r.id = rid then { r with duration := some result.duration } else r)).find? (fun r => r.id = rid)).map RecordingRow.status
        = ((db1.recordings.find? (fun r => r.id = rid)).map RecordingRow.status)
      rw [find?_map_update_id db1.recordings rid (fun r => { r with duration := some result.duration }) (fun _ => rfl)]
      cases db1.recordings.find? (fun r => decide (r.id = rid)) <;> rfl
  · simp only [hcr, if_neg hdur]
    exact ⟨_, rfl, hft2a, rfl⟩

/-- The resolver phase: invoked exactly when a resolver exists and the
speaker count exceeds 1; it never touches recordings, and it preserves
the transcript row contents other than the mapping fields. -/
lemma resolverPhase_spec (db2 : DB) (rid : String) (result : TranscriptionResult)
    (resolver : Option (Except String SpeakerMapping)) (row : TranscriptRow)
    (hft2 : findTranscript db2 rid = some row) :
    ∃ db3, resolverPhase db2 rid result resolver
        = (db3, resolver.isSome && decide (1 < result.speakerCount)) ∧
      findRecording db3 rid = findRecording db2 rid ∧
      ∃ t, findTranscript db3 rid = some t ∧
        t.speakerCount = row.speakerCount ∧
        t.content = row.content ∧
        t.rawTranscript = row.rawTranscript := by
  unfold resolverPhase
  cases resolver with
  | none =>
    exact ⟨db2, rfl, rfl, row, hft2, rfl, rfl, rfl⟩
  | some outcome =>
    by_cases hcnt : result.speakerCount ≠ 0 ∧ result.speakerCount > 1
    · have hdec : ((some outcome).isSome && decide (1 < result.speakerCount)) = true := by
        simp [hcnt.2]
      simp only [if_pos hcnt]
      cases outcome with
      | error e =>
        exact ⟨db2, by rw [hdec], rfl, row, hft2, rfl, rfl, rfl⟩
      | ok m =>
        have hsm : storeSpeakerMapping db2 rid m
            = .ok { db2 with transcripts := db2.transcripts.map (fun t => if t.recordingId = rid then { t with speakerNames := some (encodeMapping m), speakerIdentified := true } else t) } := by
          unfold storeSpeakerMapping
          exact updateTranscript_eq_ok db2 rid _ (by rw [hft2]; rfl)
        simp only [hsm]
        refine ⟨{ db2 with transcripts := db2.transcripts.map (fun t => if t.recordingId = rid then { t with speakerNames := some (encodeMapping m), speakerIdentified := true } else t) }, by rw [hdec], rfl, ?_⟩
        refine ⟨{ row with speakerNames := some (encodeMapping m), speakerIdentified := true }, ?_, rfl, rfl, rfl⟩
        rw [findTranscript_update db2 rid (fun t => { t with speakerNames := some (encodeMapping m), speakerIdentified := true }) (fun _ => rfl), hft2]
        rfl
    · have hdec : ((some outcome).isSome && decide (1 < result.speakerCount)) = false := by
        have h1 : ¬ (1 < result.speakerCount) := by
          intro h
          exact hcnt ⟨by omega, h⟩
        simp [h1]
      simp only [if_neg hcnt]
      exact ⟨db2, by rw [hdec], rfl, row, hft2, rfl, rfl, rfl⟩

/-- The final status write: result returned, flag preserved, status ends
COMPLETED, transcripts untouched. -/
lemma transcribeAudioFinish_spec (db3 : DB) (rid : String)
    (result : TranscriptionResult) (invoked : Bool)
    (hrec3 : (findRecording db3 rid).isSome) :
    (transcribeAudioFinish db3 rid result invoked).result = .ok result ∧
    (transcribeAudioFinish db3 rid result invoked).resolverInvoked = invoked ∧
    (findRecording (transcribeAudioFinish db3 rid result invoked).db rid).map RecordingRow.status
      = some "COMPLETED" ∧
    (transcribeAudioFinish db3 rid result invoked).db.transcripts = db3.transcripts := by
  obtain ⟨r3, hr3⟩ := Option.isSome_iff_exists.mp hrec3
  unfold transcribeAudioFinish updateRecordingStatus
  simp only [updateRecording_eq_ok db3 rid (fun r => { r with status := "COMPLETED" }) hrec3]
  refine ⟨trivial, trivial, ?_, trivial⟩
  rw [findRecording_update db3 rid (fun r => { r with status := "COMPLETED" }) (fun _ => rfl), hr3]
  rfl

/-- The whole success path of transcribeAudio: for an existing recording,
a non-error provider response, and no pre-existing transcript, the run
returns the direct transcription result, invokes the resolver exactly
when one exists and more than one speaker was counted, ends the recording
in COMPLETED, and persists a transcript row with the or-else-1 speaker
count and the normalized segments. -/
lemma transcribeAudio_success (db : DB) (rid : String) (env : RunEnv)
    (hrec : (findRecording db rid).isSome)
    (hok : env.resp.status ≠ "error")
    (hnew : findTranscript db rid = none) :
    (transcribeAudio db rid env).result = .ok (directResult env) ∧
    (transcribeAudio db rid env).resolverInvoked
      = (env.resolver.isSome && decide (1 < countUniqueSpeakers (parseAssemblyAISegmentsWithSpeakers env.resp))) ∧
    (findRecording (transcribeAudio db rid env).db rid).map RecordingRow.status = some "COMPLETED" ∧
    ∃ t, findTranscript (transcribeAudio db rid env).db rid = some t ∧
      t.speakerCount = (if countUniqueSpeakers (parseAssemblyAISegmentsWithSpeakers env.resp) = 0 then 1
                        else countUniqueSpeakers (parseAssemblyAISegmentsWithSpeakers env.resp)) ∧
      t.content = parseAssemblyAISegmentsWithSpeakers env.resp := by
  obtain ⟨r0, hr0⟩ := Option.isSome_iff_exists.mp hrec
  have h1 := updateRecording_eq_ok db rid (fun r => { r with status := "TRANSCRIBING" }) hrec
  have hrec1 : (findRecording { db with recordings := db.recordings.map (fun r => if r.id = rid then { r with status := "TRANSCRIBING" } else r) } rid).isSome := by
    rw [findRecording_update db rid (fun r => { r with status := "TRANSCRIBING" }) (fun _ => rfl), hr0]
    rfl
  have hnew1 : findTranscript { db with recordings := db.recordings.map (fun r => if r.id = rid then { r with status := "TRANSCRIBING" } else r) } rid = none := hnew
  obtain ⟨db2, hst, hft2, hmapst⟩ := storeTranscription_success _ rid (directResult env) hrec1 hnew1
  have hrec2 : (findRecording db2 rid).isSome := by
    have hiso : ((findRecording db2 rid).map RecordingRow.status).isSome = (findRecording db2 rid).isSome := by
      cases findRecording db2 rid <;> rfl
    rw [← hiso, hmapst, findRecording_update db rid (fun r => { r with status := "TRANSCRIBING" }) (fun _ => rfl), hr0]
    rfl
  obtain ⟨db3, hres, hfr3, t, hft3, htsc, htc, htr⟩ :=
    resolverPhase_spec db2 rid (directResult env) env.resolver (createdTranscriptRow rid (directResult env)) hft2
  have hrec3 : (findRecording db3 rid).isSome := by
    rw [hfr3]
    exact hrec2
  obtain ⟨hfin1, hfin2, hfin3, hfin4⟩ :=
    transcribeAudioFinish_spec db3 rid (directResult env)
      (env.resolver.isSome && decide (1 < (directResult env).speakerCount)) hrec3
  have hrun : transcribeAudio db rid env
      = transcribeAudioFinish db3 rid (directResult env)
          (env.resolver.isSome && decide (1 < (directResult env).speakerCount)) := by
    unfold transcribeAudio updateRecordingStatus
    simp only [h1, transcribeDirectly_ok env hok, hst, hres]
  rw [hrun]
  refine ⟨hfin1, hfin2, hfin3, t, ?_, ?_, ?_⟩
  · rw [findTranscript_ext db3 _ rid hfin4]
    exact hft3
  · rw [htsc]
    rfl
  · rw [htc]
    rfl

/-! ## Claim C7 -/

/-- Claim C7: in a successful run the speaker resolver is invoked exactly
when a resolver is available and the computed speaker count exceeds 1,
and the recording ends COMPLETED whatever the resolver outcome was (a
resolver failure is swallowed); with speakerCount 1 or 0 or no resolver,
the flag is false and the run still completes. -/
theorem c7_resolver_iff_and_completed (db : DB) (rid : String) (env : RunEnv)
    (hrec : (findRecording db rid).isSome)
    (hok : env.resp.status ≠ "error")
    (hnew : findTranscript db rid = none) :
    (transcribeAudio db rid env).resolverInvoked
      = (env.resolver.isSome && decide (1 < countUniqueSpeakers (parseAssemblyAISegmentsWithSpeakers env.resp))) ∧
    (findRecording (transcribeAudio db rid env).db rid).map RecordingRow.status = some "COMPLETED" := by
  obtain ⟨_, h2, h3, _⟩ := transcribeAudio_success db rid env hrec hok hnew
  exact ⟨h2, h3⟩

/-- Witness for C7: two speakers are detected, a resolver exists but
fails; the flag is true and the status still ends COMPLETED. -/
theorem c7_resolver_iff_and_completed_witness :
    (transcribeAudio
        { recordings := [{ id := "r1", filename := "f.mp3", originalFilename := "f.mp3",
                           duration := none, status := "PROCESSING" }], transcripts := [] }
        "r1"
        { resp := { status := "completed", error := none, text := some "hi hello",
                    language_code := some "en", audio_duration := some 4,
                    utterances := some [⟨0, 2000, "hi", some "A"⟩, ⟨2000, 4000, "hello", some "B"⟩],
                    words := none },
          probeDuration := 0, resolver := some (.error "rate limit") }).resolverInvoked
      = ((some (Except.error "rate limit" : Except String SpeakerMapping)).isSome &&
          decide (1 < countUniqueSpeakers (parseAssemblyAISegmentsWithSpeakers
            { status := "completed", error := none, text := some "hi hello",
              language_code := some "en", audio_duration := some 4,
              utterances := some [⟨0, 2000, "hi", some "A"⟩, ⟨2000, 4000, "hello", some "B"⟩],
              words := none }))) ∧
    (findRecording (transcribeAudio
        { recordings := [{ id := "r1", filename := "f.mp3", originalFilename := "f.mp3",
                           duration := none, status := "PROCESSING" }], transcripts := [] }
        "r1"
        { resp := { status := "completed", error := none, text := some "hi hello",
                    language_code := some "en", audio_duration := some 4,
                    utterances := some [⟨0, 2000, "hi", some "A"⟩, ⟨2000, 4000, "hello", some "B"⟩],
                    words := none },
          probeDuration := 0, resolver := some (.error "rate limit") }).db "r1").map RecordingRow.status
      = some "COMPLETED" :=
  c7_resolver_iff_and_completed _ "r1" _ rfl (by decide) rfl

/-! ## Claim C10 -/

/-- Claim C10: every transcript row persisted by a successful run carries
a speaker count of at least 1; when the computed distinct-speaker count
is 0 the stored value is 1. -/
theorem c10_speaker_count_at_least_one (db : DB) (rid : String) (env : RunEnv)
    (hrec : (findRecording db rid).isSome)
    (hok : env.resp.status ≠ "error")
    (hnew : findTranscript db rid = none) :
    ∃ t, findTranscript (transcribeAudio db rid env).db rid = some t ∧
      1 ≤ t.speakerCount ∧
      (countUniqueSpeakers (parseAssemblyAISegmentsWithSpeakers env.resp) = 0 →
        t.speakerCount = 1) := by
  obtain ⟨_, _, _, t, hft, hsc, _⟩ := transcribeAudio_success db rid env hrec hok hnew
  refine ⟨t, hft, ?_, ?_⟩
  · rw [hsc]
    by_cases h : countUniqueSpeakers (parseAssemblyAISegmentsWithSpeakers env.resp) = 0
    · rw [if_pos h]
    · rw [if_neg h]
      omega
  · intro h
    rw [hsc, if_pos h]

/-- Witness for C10: a response with neither utterances nor words yields
the speakerless fallback segment, a computed count of 0, and a stored
speaker count of 1. -/
theorem c10_speaker_count_at_least_one_witness :
    ∃ t, findTranscript (transcribeAudio
        { recordings := [{ id := "r1", filename := "f.mp3", originalFilename := "f.mp3",
                           duration := none, status := "PROCESSING" }], transcripts := [] }
        "r1"
        { resp := { status := "completed", error := none, text := some "hello world",
                    language_code := none, audio_duration := some 7,
                    utterances := none, words := none },
          probeDuration := 0, resolver := none }).db "r1" = some t ∧
      1 ≤ t.speakerCount ∧
      (countUniqueSpeakers (parseAssemblyAISegmentsWithSpeakers
          { status := "completed", error := none, text := some "hello world",
            language_code := none, audio_duration := some 7,
            utterances := none, words := none }) = 0 →
        t.speakerCount = 1) :=
  c10_speaker_count_at_least_one _ "r1" _ rfl (by decide) rfl

/-! ## JSON round-trip lemmas -/

/-- The hexadecimal digit emitted for a value below 16 parses back to it. -/
lemma hexVal_hexDigitChar : ∀ n, n < 16 → hexVal (hexDigitChar n) = some n := by
  decide

/-- The string-body parser inverts the character escaper. -/
lemma parseStringBody_encode (s : List Char) (rest : List Char) :
    parseStringBody (encodeStringBody s ++ '"' :: rest) = some (s, rest) := by
  induction s with
  | nil =>
    rw [show encodeStringBody [] ++ '"' :: rest = '"' :: rest by simp [encodeStringBody]]
    rw [parseStringBody.eq_def]
    simp
  | cons c cs ih =>
    have hstep : encodeStringBody (c :: cs) = escapeChar c ++ encodeStringBody cs := by
      simp [encodeStringBody]
    rw [hstep, List.append_assoc]
    by_cases h1 : c = '"'
    · subst h1
      rw [show escapeChar '"' = ['\\', '"'] from rfl]
      simp only [List.cons_append, List.nil_append]
      rw [parseStringBody.eq_def]
      simp [ih]
    · by_cases h2 : c = '\\'
      · subst h2
        rw [show escapeChar '\\' = ['\\', '\\'] from rfl]
        simp only [List.cons_append, List.nil_append]
        rw [parseStringBody.eq_def]
        simp [ih]
      · by_cases h3 : c = '\x08'
        · subst h3
          rw [show escapeChar '\x08' = ['\\', 'b'] from rfl]
          simp only [List.cons_append, List.nil_append]
          rw [parseStringBody.eq_def]
          simp [ih]
        · by_cases h4 : c = '\x0c'
          · subst h4
            rw [show escapeChar '\x0c' = ['\\', 'f'] from rfl]
            simp only [List.cons_append, List.nil_append]
            rw [parseStringBody.eq_def]
            simp [ih]
          · by_cases h5 : c = '\n'
            · subst h5
              rw [show escapeChar '\n' = ['\\', 'n'] from rfl]
              simp only [List.cons_append, List.nil_append]
              rw [parseStringBody.eq_def]
              simp [ih]
            · by_cases h6 : c = '\r'
              · subst h6
                rw [show escapeChar '\r' = ['\\', 'r'] from rfl]
                simp only [List.cons_append, List.nil_append]
                rw [parseStringBody.eq_def]
                simp [ih]
              · by_cases h7 : c = '\t'
                · subst h7
                  rw [show escapeChar '\t' = ['\\', 't'] from rfl]
                  simp only [List.cons_append, List.nil_append]
                  rw [parseStringBody.eq_def]
                  simp [ih]
                · by_cases h8 : c.toNat < 32
                  · have hdiv : c.toNat / 16 < 16 := by omega
                    have hmod : c.toNat % 16 < 16 := Nat.mod_lt _ (by norm_num)
                    have harith : ((0 * 16 + 0) * 16 + c.toNat / 16) * 16 + c.toNat % 16 = c.toNat := by
                      omega
                    rw [show escapeChar c = ['\\', 'u', '0', '0', hexDigitChar (c.toNat / 16), hexDigitChar (c.toNat % 16)] by
                      simp only [escapeChar, if_neg h1, if_neg h2, if_neg h3, if_neg h4,
                        if_neg h5, if_neg h6, if_neg h7, if_pos h8]]
                    simp only [List.cons_append, List.nil_append]
                    rw [parseStringBody.eq_def]
                    simp [show hexVal '0' = some 0 from rfl,
                      hexVal_hexDigitChar _ hdiv, hexVal_hexDigitChar _ hmod,
                      harith, Char.ofNat_toNat, ih]
                    rw [show c.toNat / 16 * 16 + c.toNat % 16 = c.toNat from by omega,
                      Char.ofNat_toNat]
                  · rw [show escapeChar c = [c] by
                      simp only [escapeChar, if_neg h1, if_neg h2, if_neg h3, if_neg h4,
                        if_neg h5, if_neg h6, if_neg h7, if_neg h8]]
                    simp only [List.cons_append, List.nil_append]
                    rw [parseStringBody.eq_def]
                    simp [h1, h2, ih]

/-- The pair-list parser inverts the pair-list encoder, given enough
fuel. -/
lemma parsePairs_encode :
    ∀ (m : SpeakerMapping) (fuel : Nat) (rest : List Char),
      m ≠ [] → m.length ≤ fuel →
      parsePairs fuel (encodeBody m ++ '}' :: rest) = some (m, rest) := by
  intro m
  induction m with
  | nil =>
    intro fuel rest h _
    exact absurd rfl h
  | cons p ps ih =>
    intro fuel rest _ hlen
    have hge : ps.length + 1 ≤ fuel := by simpa using hlen
    obtain ⟨f, rfl⟩ : ∃ f, fuel = f + 1 := ⟨fuel - 1, by omega⟩
    cases ps with
    | nil =>
      have hform : encodeBody [p] ++ '}' :: rest
          = '"' :: (encodeStringBody p.1.data ++ '"' :: ':' :: '"' ::
              (encodeStringBody p.2.data ++ '"' :: '}' :: rest)) := by
        simp [encodeBody, encodePair, encodeJString]
      rw [hform, parsePairs.eq_def]
      simp [parseStringBody_encode]
    | cons q qs =>
      have hform : encodeBody (p :: q :: qs) ++ '}' :: rest
          = '"' :: (encodeStringBody p.1.data ++ '"' :: ':' :: '"' ::
              (encodeStringBody p.2.data ++ '"' :: ',' ::
                (encodeBody (q :: qs) ++ '}' :: rest))) := by
        simp [encodeBody, encodePair, encodeJString]
      rw [hform, parsePairs.eq_def]
      have hrec := ih f rest (by simp) (by simpa using hge)
      simp [parseStringBody_encode, hrec]

/-- The encoded pair list is at least as long as the pair list. -/
lemma encodeBody_length (m : SpeakerMapping) : m.length ≤ (encodeBody m).length := by
  induction m with
  | nil => simp [encodeBody]
  | cons p ps ih =>
    have hp : 1 ≤ (encodePair p).length := by
      simp [encodePair, encodeJString]
    cases ps with
    | nil =>
      have hstep : encodeBody [p] = encodePair p := rfl
      rw [hstep]
      simpa using hp
    | cons q qs =>
      have hstep : encodeBody (p :: q :: qs) = encodePair p ++ ',' :: encodeBody (q :: qs) := rfl
      rw [hstep]
      simp only [List.length_cons, List.length_append] at ih ⊢
      omega

/-- JSON.parse inverts JSON.stringify on flat string-to-string objects. -/
lemma decodeMapping_encodeMapping (m : SpeakerMapping) :
    decodeMapping (encodeMapping m) = some m := by
  cases m with
  | nil => rfl
  | cons p ps =>
    have hdata : (encodeMapping (p :: ps)).data
        = '{' :: (encodeBody (p :: ps) ++ ['}']) := rfl
    unfold decodeMapping
    rw [hdata]
    have hhead : ∃ L, encodeBody (p :: ps) ++ ['}'] = '"' :: L := by
      cases ps with
      | nil =>
        refine ⟨encodeStringBody p.1.data ++ '"' :: ':' :: '"' ::
          (encodeStringBody p.2.data ++ '"' :: '}' :: []), ?_⟩
        simp [encodeBody, encodePair, encodeJString]
      | cons q qs =>
        refine ⟨encodeStringBody p.1.data ++ '"' :: ':' :: '"' ::
          (encodeStringBody p.2.data ++ '"' :: ',' ::
            (encodeBody (q :: qs) ++ '}' :: [])), ?_⟩
        simp [encodeBody, encodePair, encodeJString]
    obtain ⟨L, hL⟩ := hhead
    rw [hL]
    have hfuel2 : (p :: ps).length ≤ L.length + 1 := by
      have h1 := encodeBody_length (p :: ps)
      have h2 := congrArg List.length hL
      simp only [List.length_append, List.length_cons] at h1 h2 ⊢
      omega
    have hmain : parsePairs (L.length + 1) ('"' :: L) = some (p :: ps, []) := by
      rw [← hL]
      exact parsePairs_encode (p :: ps) (L.length + 1) [] (by simp) hfuel2
    simp [hmain]

/-! ## Claim C8 -/

/-- The serialized mapping is never the empty string (it starts with a
brace), so the getter truthiness guard passes. -/
lemma encodeMapping_ne_empty (m : SpeakerMapping) : encodeMapping m ≠ "" := by
  intro hc
  have hdata := congrArg String.data hc
  rw [show (encodeMapping m).data = '{' :: (encodeBody m ++ ['}']) from rfl] at hdata
  simp at hdata

/-- Claim C8: storing a speaker mapping for a recording whose transcript
row exists and reading it straight back yields exactly the same flat
string-to-string mapping, for every mapping. -/
theorem c8_mapping_roundtrip (db : DB) (rid : String) (m : SpeakerMapping)
    (h : (findTranscript db rid).isSome) :
    ∃ db2, storeSpeakerMapping db rid m = .ok db2 ∧ getSpeakerMapping db2 rid = some m := by
  obtain ⟨row, hrow⟩ := Option.isSome_iff_exists.mp h
  have hupd := updateTranscript_eq_ok db rid
    (fun t => { t with speakerNames := some (encodeMapping m), speakerIdentified := true }) h
  refine ⟨{ db with transcripts := db.transcripts.map (fun t => if t.recordingId = rid then { t with speakerNames := some (encodeMapping m), speakerIdentified := true } else t) }, ?_, ?_⟩
  · unfold storeSpeakerMapping
    exact hupd
  · unfold getSpeakerMapping
    rw [findTranscript_update db rid
      (fun t => { t with speakerNames := some (encodeMapping m), speakerIdentified := true })
      (fun _ => rfl), hrow]
    simp [encodeMapping_ne_empty m, decodeMapping_encodeMapping]

/-- Witness for C8 on a one-transcript database and a one-entry mapping. -/
theorem c8_mapping_roundtrip_witness :
    ∃ db2, storeSpeakerMapping
        { recordings := [],
          transcripts := [{ id := "t1", recordingId := "r1", content := [],
                            rawTranscript := "hi", speakerCount := 2,
                            confidenceScore := none, language := some "en",
                            speakerNames := none, speakerIdentified := false }] }
        "r1" [("Speaker A", "Jane Doe")] = .ok db2 ∧
      getSpeakerMapping db2 "r1" = some [("Speaker A", "Jane Doe")] :=
  c8_mapping_roundtrip _ "r1" [("Speaker A", "Jane Doe")] rfl

/-! ## Claim C9 -/

set_option maxRecDepth 4000 in
/-- Claim C9, counterexample: getTranscription does not replace the
speaker tag with the mapped name; it keeps the tag and adds a separate
speakerName attribute. With mapping Speaker A to Jane Doe stored, no
returned view carries Jane Doe in the speaker field. -/
theorem c9_counterexample :
    ¬ ∃ v, getTranscription
        { recordings := [{ id := "r1", filename := "f.mp3", originalFilename := "f.mp3",
                           duration := none, status := "COMPLETED" }],
          transcripts := [{ id := "t1", recordingId := "r1",
                            content := [⟨0, 1, "hi", some "Speaker A"⟩],
                            rawTranscript := "hi", speakerCount := 2,
                            confidenceScore := none, language := some "en",
                            speakerNames := some (encodeMapping [("Speaker A", "Jane Doe")]),
                            speakerIdentified := true }] }
        "r1" = .ok (some v) ∧
      v.segments.map SegmentView.speaker = [some "Jane Doe"] := by
  rintro ⟨v, hv, hmap⟩
  have heval : getTranscription
      { recordings := [{ id := "r1", filename := "f.mp3", originalFilename := "f.mp3",
                         duration := none, status := "COMPLETED" }],
        transcripts := [{ id := "t1", recordingId := "r1",
                          content := [⟨0, 1, "hi", some "Speaker A"⟩],
                          rawTranscript := "hi", speakerCount := 2,
                          confidenceScore := none, language := some "en",
                          speakerNames := some (encodeMapping [("Speaker A", "Jane Doe")]),
                          speakerIdentified := true }] }
      "r1"
      = .ok (some
        { id := "t1", recordingId := "r1", text := "hi",
          segments := [{ start := 0, end_ := 1, text := "hi",
                         speaker := some "Speaker A", speakerName := some "Jane Doe" }],
          language := some "en", speakerCount := 2,
          speakerNames := some [("Speaker A", "Jane Doe")],
          speakerIdentified := true, confidenceScore := none,
          recording := { id := "r1", filename := "f.mp3", originalFilename := "f.mp3",
                         duration := none, status := "COMPLETED" } }) := rfl
  rw [heval] at hv
  obtain rfl := Option.some.inj (Except.ok.inj hv)
  exact absurd hmap (by decide)

/-- The length-guarded overlay equals the unguarded overlay map (an empty
list maps to the empty list either way). -/
lemma overlay_guard_eq (mp : SpeakerMapping) (content : List Segment) :
    (if content.length > 0 then content.map (overlaySegment mp)
     else content.map plainSegmentView) = content.map (overlaySegment mp) := by
  by_cases h : content.length > 0
  · rw [if_pos h]
  · rw [if_neg h]
    have hnil : content = [] := by
      cases content with
      | nil => rfl
      | cons a l => simp at h
    rw [hnil]
    simp

/-- Claim C9, amended: getTranscription returns the distinguished null
result when no transcript row exists; when a transcript with a stored
mapping exists (and its recording relation resolves), it returns a view
whose segments keep their original speaker tags unchanged and carry an
additional speakerName equal to the mapped name when both the tag and its
mapping entry are truthy, and equal to the original speaker otherwise. -/
theorem c9_get_transcription (db : DB) (rid : String) :
    (findTranscript db rid = none → getTranscription db rid = .ok none) ∧
    (∀ t rec mp, findTranscript db rid = some t →
      findRecording db t.recordingId = some rec →
      t.speakerNames = some (encodeMapping mp) →
      ∃ v : TranscriptionView, getTranscription db rid = .ok (some v) ∧
        v.segments.length = t.content.length ∧
        ∀ (i : Nat) (seg : Segment), t.content[i]? = some seg →
          ∃ sv : SegmentView, v.segments[i]? = some sv ∧
            sv.start = seg.start ∧ sv.end_ = seg.end_ ∧ sv.text = seg.text ∧
            sv.speaker = seg.speaker ∧
            (∀ sp nm, seg.speaker = some sp → sp ≠ "" → jsObjGet mp sp = some nm →
              nm ≠ "" → sv.speakerName = some nm) ∧
            (∀ sp, seg.speaker = some sp → sp ≠ "" →
              jsObjGet mp sp = none ∨ jsObjGet mp sp = some "" →
              sv.speakerName = some sp) ∧
            ((seg.speaker = none ∨ seg.speaker = some "") →
              sv.speakerName = seg.speaker)) := by
  constructor
  · intro hnone
    unfold getTranscription
    rw [hnone]
  · intro t rec mp hft hrecf hsn
    unfold getTranscription
    simp only [hft, hrecf, hsn, if_neg (encodeMapping_ne_empty mp),
      decodeMapping_encodeMapping, overlay_guard_eq]
    refine ⟨_, rfl, by simp, ?_⟩
    intro i seg hseg
    refine ⟨overlaySegment mp seg, by simp [List.getElem?_map, hseg], rfl, rfl, rfl, rfl, ?_, ?_, ?_⟩
    · intro sp nm hsp hne hget hnm
      unfold overlaySegment
      rw [hsp]
      simp [hne, hget, hnm]
    · intro sp hsp hne hget
      unfold overlaySegment
      rw [hsp]
      rcases hget with h | h <;> simp [hne, h]
    · intro hsp
      unfold overlaySegment
      rcases hsp with h | h <;> rw [h] <;> simp

/-- Witness for C9 on a database holding a transcript with a stored
mapping. -/
theorem c9_get_transcription_witness :
    ∃ v : TranscriptionView, getTranscription
        { recordings := [{ id := "r1", filename := "f.mp3", originalFilename := "f.mp3",
                           duration := none, status := "COMPLETED" }],
          transcripts := [{ id := "t1", recordingId := "r1",
                            content := [⟨0, 1, "hi", some "Speaker A"⟩],
                            rawTranscript := "hi", speakerCount := 2,
                            confidenceScore := none, language := some "en",
                            speakerNames := some (encodeMapping [("Speaker A", "Jane Doe")]),
                            speakerIdentified := true }] }
        "r1" = .ok (some v) ∧
      v.segments.length = ([⟨0, 1, "hi", some "Speaker A"⟩] : List Segment).length ∧
      ∀ (i : Nat) (seg : Segment), ([⟨0, 1, "hi", some "Speaker A"⟩] : List Segment)[i]? = some seg →
        ∃ sv : SegmentView, v.segments[i]? = some sv ∧
          sv.start = seg.start ∧ sv.end_ = seg.end_ ∧ sv.text = seg.text ∧
          sv.speaker = seg.speaker ∧
          (∀ sp nm, seg.speaker = some sp → sp ≠ "" →
            jsObjGet [("Speaker A", "Jane Doe")] sp = some nm →
            nm ≠ "" → sv.speakerName = some nm) ∧
          (∀ sp, seg.speaker = some sp → sp ≠ "" →
            jsObjGet [("Speaker A", "Jane Doe")] sp = none ∨
              jsObjGet [("Speaker A", "Jane Doe")] sp = some "" →
            sv.speakerName = some sp) ∧
          ((seg.speaker = none ∨ seg.speaker = some "") →
            sv.speakerName = seg.speaker) :=
  (c9_get_transcription _ "r1").2
    { id := "t1", recordingId := "r1",
      content := [⟨0, 1, "hi", some "Speaker A"⟩],
      rawTranscript := "hi", speakerCount := 2,
      confidenceScore := none, language := some "en",
      speakerNames := some (encodeMapping [("Speaker A", "Jane Doe")]),
      speakerIdentified := true }
    { id := "r1", filename := "f.mp3", originalFilename := "f.mp3",
      duration := none, status := "COMPLETED" }
    [("Speaker A", "Jane Doe")] rfl rfl rfl

end AbhiScript
